import Mathlib

/-!
Verification of the ChessRL Gymnasium environment
(`src/environment/chess_env.py`, class `ChessEnv`).

The environment wraps the external rules engine `python-chess` (`chess.Board`);
the engine is modelled here as a `Board` record carrying exactly the data the
environment reads from it: the piece placement (`piece_map()`), the side to
move (`turn`), the game-state predicates (`is_check`, `is_checkmate`,
`is_stalemate`, `is_insufficient_material`, `is_game_over`), the legal-move
set, the fullmove counter, and the FEN / castling / en-passant metadata used
by `reset`.  Engine operations whose results the environment consumes and
whose definition is fixed by the `python-chess` library (`is_capture`,
`is_en_passant`, `piece_at`, `king`, `square`, `square_file`, `square_rank`)
are reproduced from that library faithfully, including its Python
list-indexing behaviour (`BB_SQUARES[square]`: negative indices wrap, indices
greater than 63 raise `IndexError`).

Python floats are modelled as `ℚ` (every constant in the reward shaping is a
small decimal).  Code that can raise an exception is modelled with `Option` /
`Except`: `none` / `.error` is a raised Python exception.

Squares are the integers 0..63, `square = rank * 8 + file`, exactly as in
`python-chess` (`A1 = 0`, `H8 = 63`).  Colors are booleans, `true` = White,
as in `python-chess` (`WHITE = True`).
-/

namespace ChessRL

/-- A chess piece as the engine reports it: `piece_type` 1..6
(pawn, knight, bishop, rook, queen, king) and `color` (`true` = white). -/
structure Piece where
  pieceType : Nat
  color : Bool
  deriving DecidableEq, Repr

/-- The environment only ever builds `chess.Move(from_square, to_square)`
(`generate_all_moves`), so a move is a from-square / to-square pair;
the promotion field is always `None` and is omitted. -/
structure Move where
  fromSq : Nat
  toSq : Nat
  deriving DecidableEq, Repr

/-- The slice of the external engine state (`chess.Board`) that
`ChessEnv` reads.  `pieceMap` is the association list underlying
`board.piece_map()`; the Boolean flags and `legalMoves`, `fullmoveNumber`,
`result`, `fen`, `castlingRights`, `epSquare` are the engine outputs the
environment consumes as a black box. -/
structure Board where
  pieceMap : List (Nat × Piece)
  turn : Bool
  isCheck : Bool
  isCheckmate : Bool
  isStalemate : Bool
  isInsufficientMaterial : Bool
  isGameOver : Bool
  legalMoves : List Move
  fullmoveNumber : Nat
  result : String
  fen : String
  castlingRights : Nat
  epSquare : Option Nat
  deriving DecidableEq, Repr

/-- Engine lookup `board.piece_at(square)` for an in-range square:
the piece on `sq`, if any. -/
def Board.pieceAt (b : Board) (sq : Nat) : Option Piece :=
  (b.pieceMap.find? (fun e => e.1 == sq)).map (fun e => e.2)

/-- Engine lookup `board.piece_at(square)` at an arbitrary integer index.
In `python-chess` this evaluates `BB_SQUARES[square]` where `BB_SQUARES` is a
Python list of length 64, so an index in `[-64, -1]` wraps around (Python
negative indexing) and an index outside `[-64, 63]` raises `IndexError`
(modelled as `none`; `some r` is a normal return). -/
def Board.pieceAtIdx (b : Board) (i : Int) : Option (Option Piece) :=
  if 0 ≤ i ∧ i < 64 then some (b.pieceAt i.toNat)
  else if -64 ≤ i ∧ i < 0 then some (b.pieceAt (i + 64).toNat)
  else none

/-- Engine predicate `board.is_en_passant(move)`, reproduced from
`python-chess`: the en-passant square is the move target, a pawn stands on
the from-square, the move steps 7 or 9 square indices, and the target square
is empty. -/
def Board.isEnPassant (b : Board) (m : Move) : Bool :=
  b.epSquare == some m.toSq
    && (match b.pieceAt m.fromSq with
        | some p => p.pieceType == 1
        | none => false)
    && (((m.toSq : Int) - (m.fromSq : Int)).natAbs == 7
        || ((m.toSq : Int) - (m.fromSq : Int)).natAbs == 9)
    && (b.pieceAt m.toSq).isNone

/-- Occupancy bitboard test `occupied_co[color] & BB_SQUARES[sq]`. -/
def Board.occupiedCo (b : Board) (c : Bool) (sq : Nat) : Bool :=
  match b.pieceAt sq with
  | some p => p.color == c
  | none => false

/-- Engine predicate `board.is_capture(move)`, reproduced from
`python-chess`: `touched = BB_SQUARES[from] ^ BB_SQUARES[to]`, and the move
is a capture iff `touched & occupied_co[not turn]` is non-empty or the move
is an en-passant capture.  Note this consults the board the predicate is
called on: called on a position in which the move has already been played,
the to-square holds the just-moved piece of color `not turn`, so the test is
true for every just-played move. -/
def Board.isCapture (b : Board) (m : Move) : Bool :=
  (b.occupiedCo (!b.turn) m.fromSq || b.occupiedCo (!b.turn) m.toSq)
    || b.isEnPassant m

/-- Engine lookup `board.king(color)`: the square of the king of the given
color, `none` if that king is absent. -/
def Board.king (b : Board) (c : Bool) : Option Nat :=
  (b.pieceMap.find? (fun e => e.2.pieceType == 6 && e.2.color == c)).map
    (fun e => e.1)

/-! ### Move codec (`generate_all_moves`, `get_move_to_action`,
`get_action_to_move`, `decode_action`) -/

/-- `ChessEnv.generate_all_moves`: all 64 x 64 from/to square pairs, the
from-square loop outside, the to-square loop inside. -/
def generate_all_moves : List Move :=
  (List.range 64).flatMap
    (fun from_square => (List.range 64).map (fun to_square => ⟨from_square, to_square⟩))

/-- Instance attribute `self.all_possible_moves`. -/
def all_possible_moves : List Move := generate_all_moves

/-- `ChessEnv.get_move_to_action`: insertion-ordered dictionary built by
`for action, move in enumerate(all_possible_moves): if move not in d:
d[move] = action`, modelled as the association list of its items. -/
def get_move_to_action : List (Move × Nat) :=
  all_possible_moves.enum.foldl
    (fun d p => if d.any (fun e => e.1 == p.2) then d else d ++ [(p.2, p.1)]) []

/-- Instance attribute `self.move_to_action`. -/
def move_to_action : List (Move × Nat) := get_move_to_action

/-- `ChessEnv.get_action_to_move`: `for move, action in move_to_action.items():
if action not in d: d[action] = move`. -/
def get_action_to_move : List (Nat × Move) :=
  move_to_action.foldl
    (fun d p => if d.any (fun e => e.1 == p.2) then d else d ++ [(p.2, p.1)]) []

/-- Instance attribute `self.action_to_move`. -/
def action_to_move : List (Nat × Move) := get_action_to_move

/-- Dictionary lookup `self.move_to_action[m]` (used to name the action
index assigned to a move; `none` = `KeyError`). -/
def moveToActionLookup (m : Move) : Option Nat :=
  (move_to_action.find? (fun e => e.1 == m)).map (fun e => e.2)

/-- Branch on the result of the `action_to_move` containment test and
lookup (split out so the branch can be reasoned about without forcing the
kernel to evaluate the 4096-entry table). -/
def decodeResult (o : Option (Nat × Move)) : Except String Move :=
  match o with
  | none => Except.error "Invalid action index"
  | some e => Except.ok e.2

/-- `ChessEnv.decode_action`: raises `ValueError` (the spec's
`InvalidAction`) when the index is not a key of `action_to_move`. -/
def decode_action (action : Nat) : Except String Move :=
  decodeResult (action_to_move.find? (fun e => e.1 == action))

/-! ### Board encoder (`map_pieces`, `get_observation`) -/

/-- Piece symbol as the engine reports it (`piece.symbol()`): uppercase for
white, lowercase for black. -/
def Piece.symbol (p : Piece) : Char :=
  match p.color, p.pieceType with
  | true, 1 => 'P'
  | true, 2 => 'N'
  | true, 3 => 'B'
  | true, 4 => 'R'
  | true, 5 => 'Q'
  | true, 6 => 'K'
  | false, 1 => 'p'
  | false, 2 => 'n'
  | false, 3 => 'b'
  | false, 4 => 'r'
  | false, 5 => 'q'
  | false, 6 => 'k'
  | _, _ => '?'

/-- `ChessEnv.map_pieces` (instance attribute `self.pieces`): the dictionary
from piece symbols to signed observation values. -/
def pieces : Char → Int
  | 'P' => 1
  | 'N' => 2
  | 'B' => 3
  | 'R' => 4
  | 'Q' => 5
  | 'K' => 6
  | 'p' => -1
  | 'n' => -2
  | 'b' => -3
  | 'r' => -4
  | 'q' => -5
  | 'k' => -6
  | _ => 0

/-- The `np.zeros((8,8), dtype=np.int8)` grid. -/
def emptyObs : List (List Int) := List.replicate 8 (List.replicate 8 0)

/-- Numpy assignment `observation[row][col] = v` (indices produced by
`get_observation` are always in range). -/
def obsSet (o : List (List Int)) (row col : Nat) (v : Int) : List (List Int) :=
  match o[row]? with
  | none => o
  | some r => o.set row (r.set col v)

/-- Read `observation[row][col]` (0 outside the grid, which never occurs
for the 8 x 8 grids built here). -/
def obsGet (o : List (List Int)) (row col : Nat) : Int :=
  ((o[row]?.getD [])[col]?).getD 0

/-- `ChessEnv.get_observation`: start from the zero grid and, for every
entry of `board.piece_map()`, write the signed piece value at
`row = 7 - square_rank(square)`, `col = square_file(square)`. -/
def get_observation (board : Board) : List (List Int) :=
  board.pieceMap.foldl
    (fun observation e =>
      obsSet observation (7 - e.1 / 8) (e.1 % 8) (pieces e.2.symbol))
    emptyObs

/-! ### Reward evaluator

The Python methods read the instance attributes `self.board` (the current,
post-move position at every call site inside `step`) and
`self.current_player`; both are explicit parameters here, passed at each
call site exactly as the attributes read there. -/

/-- Capture value table `{'p': 0.1, 'n': 0.3, 'b': 0.3, 'r': 0.5, 'q': 0.9,
'k': 0}`, keyed by `captured_piece.symbol().lower()` (equivalently, by the
piece type). -/
def capture_piece_values : Nat → ℚ
  | 1 => 1/10
  | 2 => 3/10
  | 3 => 3/10
  | 4 => 1/2
  | 5 => 9/10
  | _ => 0

/-- `ChessEnv.reward_for_capture(move, previous_board)`.  `board` is
`self.board` and `current_player` is `self.current_player` at the call
site.  When `board.is_capture(move)` holds but `previous_board` has no piece
on the target square, the Python code evaluates `None.symbol()` and raises
`AttributeError`, modelled as `none`. -/
def reward_for_capture (board : Board) (current_player : Bool) (m : Move)
    (previous_board : Board) : Option ℚ :=
  if board.isCapture m then
    match previous_board.pieceAt m.toSq with
    | none => none
    | some captured_piece =>
      if captured_piece.color != current_player then
        some (capture_piece_values captured_piece.pieceType)
      else
        some 0
  else
    some 0

/-- `ChessEnv.reward_for_check`: 0.5 if `self.board.is_check()`. -/
def reward_for_check (board : Board) : ℚ :=
  if board.isCheck then 1/2 else 0

/-- Material value table `{'p': 1, 'n': 3, 'b': 3, 'r': 5, 'q': 9, 'k': 0}`
with `dict.get(..., 0)` defaulting. -/
def material_piece_values : Nat → ℚ
  | 1 => 1
  | 2 => 3
  | 3 => 3
  | 4 => 5
  | 5 => 9
  | _ => 0

/-- `ChessEnv.calculate_material_balance(board)`: (mover material minus
opponent material) / 39. -/
def calculate_material_balance (board : Board) (current_player : Bool) : ℚ :=
  let balances :=
    board.pieceMap.foldl
      (fun (acc : ℚ × ℚ) e =>
        if e.2.color == current_player then
          (acc.1 + material_piece_values e.2.pieceType, acc.2)
        else
          (acc.1, acc.2 + material_piece_values e.2.pieceType))
      (0, 0)
  (balances.1 - balances.2) / 39

/-- The extended-center square list of
`ChessEnv.calculate_central_control` (c3..f6 in the source order). -/
def central_squares : List Nat :=
  [18, 26, 34, 42, 19, 27, 35, 43, 20, 28, 36, 44, 21, 29, 37, 45]

/-- `ChessEnv.calculate_central_control(board)`: 0.1 per mover-owned piece
on an extended-center square. -/
def calculate_central_control (board : Board) (current_player : Bool) : ℚ :=
  central_squares.foldl
    (fun central_control square =>
      match board.pieceAt square with
      | some piece =>
        if piece.color == current_player then central_control + 1/10
        else central_control
      | none => central_control)
    0

/-- `ChessEnv.calculate_king_safety(board)`.  Returns `some score`, or
`none` when a square lookup raises `IndexError` (the loop computes
`chess.square(king_file + offset, king_rank + 1)` for White and
`king_rank - 1` for Black with no range check, then indexes
`BB_SQUARES` with the result). -/
def calculate_king_safety (board : Board) (current_player : Bool) : Option ℚ :=
  match board.king current_player with
  | none => some 0
  | some agent_king_square =>
    let king_file := agent_king_square % 8
    let is_pawn_in_file :=
      board.pieceMap.any (fun e =>
        e.1 % 8 == king_file && (e.2.pieceType == 1 && e.2.color == current_player))
    let base : ℚ := if is_pawn_in_file then 0 else -(1/2)
    let king_rank := agent_king_square / 8
    [(-1 : Int), 0, 1].foldlM
      (fun king_safety_score offset =>
        let square : Int :=
          if current_player then
            ((king_rank : Int) + 1) * 8 + ((king_file : Int) + offset)
          else
            ((king_rank : Int) - 1) * 8 + ((king_file : Int) + offset)
        match board.pieceAtIdx square with
        | none => none
        | some piece =>
          match piece with
          | some p =>
            if p.pieceType == 1 then some (king_safety_score + 1/5)
            else some king_safety_score
          | none => some king_safety_score)
      base

/-- `ChessEnv.reward_for_position(previous_board)`: the delta (current minus
previous) of material balance, central control and king safety. -/
def reward_for_position (board : Board) (current_player : Bool)
    (previous_board : Board) : Option ℚ :=
  let material_balance :=
    calculate_material_balance board current_player
      - calculate_material_balance previous_board current_player
  let positional_reward :=
    calculate_central_control board current_player
      - calculate_central_control previous_board current_player
  match calculate_king_safety previous_board current_player with
  | none => none
  | some previous_king_safety =>
    match calculate_king_safety board current_player with
    | none => none
    | some current_king_safety =>
      some (material_balance + positional_reward
        + (current_king_safety - previous_king_safety))

/-- `ChessEnv.compute_reward(move, previous_board)`: terminal bonus
(checkmate: +1 when `board.turn != current_player`, else -1; stalemate or
insufficient material: +0.5) plus capture, check and positional rewards. -/
def compute_reward (board : Board) (current_player : Bool) (m : Move)
    (previous_board : Board) : Option ℚ :=
  match reward_for_capture board current_player m previous_board with
  | none => none
  | some capture_reward =>
    let check_reward := reward_for_check board
    match reward_for_position board current_player previous_board with
    | none => none
    | some position_reward =>
      let terminal : ℚ :=
        if board.isCheckmate then
          (if board.turn != current_player then 1 else -1)
        else if board.isStalemate || board.isInsufficientMaterial then 1/2
        else 0
      some (terminal + capture_reward + check_reward + position_reward)

/-! ### Episode controller (`reset`, `step`) -/

/-- The mutable episode state of a `ChessEnv` instance: `self.board`,
`self.current_player`, `self.illegal_moves_count`.  (The attribute
`self.done` is written once in `__init__` and never read or updated
afterwards, so it is omitted.) -/
structure EnvState where
  board : Board
  current_player : Bool
  illegal_moves_count : Nat
  deriving DecidableEq, Repr

/-- The `info` dictionary returned by `step`; `none` marks a key the
branch does not put in the dictionary. -/
structure StepInfo where
  reason : Option String
  draw_reason : Option String
  illegal_moves : Nat
  total_moves_made : Nat
  in_check : Bool
  winner : Option String
  deriving DecidableEq, Repr

/-- The 5-tuple `(observation, reward, done, truncated, info)` returned by a
non-raising `step` call. -/
structure StepResult where
  observation : List (List Int)
  reward : ℚ
  terminated : Bool
  truncated : Bool
  info : StepInfo
  deriving DecidableEq, Repr

/-- A Python exception escaping `step`: the `ValueError` raised for an
action index outside `action_to_move` (the spec's `InvalidAction`), or the
`AttributeError` / `IndexError` that `compute_reward` can raise. -/
inductive PyError where
  | valueError : String → PyError
  | exception : PyError
  deriving DecidableEq, Repr

/-- The `info` metadata returned by `reset`. -/
structure ResetInfo where
  initial_board_fen : String
  starting_player : String
  castling_rights : Nat
  en_passant_square : Option Nat
  deriving DecidableEq, Repr

/-- The engine state after `chess.Board().reset()`: the standard starting
position (squares listed in ascending order; dictionary iteration order is
irrelevant because all squares are distinct).  The 20 legal opening moves
are the engine's `legal_moves` for this position. -/
def startingBoard : Board where
  pieceMap :=
    [(0, ⟨4, true⟩), (1, ⟨2, true⟩), (2, ⟨3, true⟩), (3, ⟨5, true⟩),
     (4, ⟨6, true⟩), (5, ⟨3, true⟩), (6, ⟨2, true⟩), (7, ⟨4, true⟩),
     (8, ⟨1, true⟩), (9, ⟨1, true⟩), (10, ⟨1, true⟩), (11, ⟨1, true⟩),
     (12, ⟨1, true⟩), (13, ⟨1, true⟩), (14, ⟨1, true⟩), (15, ⟨1, true⟩),
     (48, ⟨1, false⟩), (49, ⟨1, false⟩), (50, ⟨1, false⟩), (51, ⟨1, false⟩),
     (52, ⟨1, false⟩), (53, ⟨1, false⟩), (54, ⟨1, false⟩), (55, ⟨1, false⟩),
     (56, ⟨4, false⟩), (57, ⟨2, false⟩), (58, ⟨3, false⟩), (59, ⟨5, false⟩),
     (60, ⟨6, false⟩), (61, ⟨3, false⟩), (62, ⟨2, false⟩), (63, ⟨4, false⟩)]
  turn := true
  isCheck := false
  isCheckmate := false
  isStalemate := false
  isInsufficientMaterial := false
  isGameOver := false
  legalMoves :=
    [⟨8, 16⟩, ⟨8, 24⟩, ⟨9, 17⟩, ⟨9, 25⟩, ⟨10, 18⟩, ⟨10, 26⟩, ⟨11, 19⟩,
     ⟨11, 27⟩, ⟨12, 20⟩, ⟨12, 28⟩, ⟨13, 21⟩, ⟨13, 29⟩, ⟨14, 22⟩, ⟨14, 30⟩,
     ⟨15, 23⟩, ⟨15, 31⟩, ⟨1, 16⟩, ⟨1, 18⟩, ⟨6, 21⟩, ⟨6, 23⟩]
  fullmoveNumber := 1
  result := "*"
  fen := "rnbqkbnr/pppppppp/8/8/8/8/PPPPPPPP/RNBQKBNR w KQkq - 0 1"
  castlingRights := 9295429630892703873
  epSquare := none

/-- `ChessEnv.reset`: `self.board.reset()`, `self.current_player = True`,
return the observation of the fresh board plus metadata.  The method does
not touch `self.illegal_moves_count`. -/
def reset (s : EnvState) : EnvState × List (List Int) × ResetInfo :=
  let board := startingBoard
  ({ board := board
     current_player := true
     illegal_moves_count := s.illegal_moves_count },
   get_observation board,
   { initial_board_fen := board.fen
     starting_player := "white"
     castling_rights := board.castlingRights
     en_passant_square := board.epSquare })

/-- Body of `ChessEnv.step(action)` after the `action_to_move` containment
test and lookup, whose result is the `decoded` parameter (the split keeps
the 4096-entry table out of definitional reasoning); `push` is the engine's
`self.board.push(move)` operation, replacing the board by `push board move`.
The result pairs the returned value (or the escaping exception) with the
instance state when the call ends; on the `ValueError` path nothing has been
mutated, on the `AttributeError` / `IndexError` path the move has already
been pushed and the player flipped. -/
def stepDecoded (push : Board → Move → Board) (s : EnvState)
    (decoded : Option (Nat × Move)) : Except PyError StepResult × EnvState :=
  match decoded with
  | none => (Except.error (PyError.valueError "Invalid action index"), s)
  | some e =>
    let move := e.2
    let previous_board := s.board
    if s.board.isStalemate || s.board.isInsufficientMaterial then
      (Except.ok
        { observation := get_observation s.board
          reward := 1/2
          terminated := true
          truncated := false
          info :=
            { reason := some "draw"
              draw_reason :=
                some (if s.board.isStalemate then "stalemate"
                      else "insufficient_material")
              illegal_moves := s.illegal_moves_count
              total_moves_made := s.board.fullmoveNumber
              in_check := s.board.isCheck
              winner := none } }, s)
    else
      let threshold := max 5 (s.board.fullmoveNumber / 2)
      if s.illegal_moves_count > threshold then
        (Except.ok
          { observation := get_observation s.board
            reward := -1
            terminated := true
            truncated := false
            info :=
              { reason := some "too many illegal moves"
                draw_reason := none
                illegal_moves := s.illegal_moves_count
                total_moves_made := s.board.fullmoveNumber
                in_check := s.board.isCheck
                winner := none } }, s)
      else
        if move ∈ s.board.legalMoves then
          let board := push s.board move
          let current_player := !s.current_player
          match compute_reward board current_player move previous_board with
          | none =>
            (Except.error PyError.exception,
             { board := board
               current_player := current_player
               illegal_moves_count := s.illegal_moves_count })
          | some reward =>
            let done := board.isGameOver
            let info : StepInfo :=
              { reason := none
                draw_reason := none
                illegal_moves := s.illegal_moves_count
                total_moves_made := board.fullmoveNumber
                in_check := board.isCheck
                winner :=
                  if done then
                    some (if board.result == "1-0" then "white"
                          else if board.result == "0-1" then "black"
                          else "draw")
                  else none }
            (Except.ok
              { observation := get_observation board
                reward := reward
                terminated := done
                truncated := false
                info := info },
             { board := board
               current_player := current_player
               illegal_moves_count := s.illegal_moves_count })
        else
          (Except.ok
            { observation := get_observation s.board
              reward := -(1/10)
              terminated := false
              truncated := false
              info :=
                { reason := some "illegal move"
                  draw_reason := none
                  illegal_moves := s.illegal_moves_count
                  total_moves_made := s.board.fullmoveNumber
                  in_check := s.board.isCheck
                  winner := none } },
           { s with illegal_moves_count := s.illegal_moves_count + 1 })

/-- `ChessEnv.step(action)`: decode the action against `action_to_move`
(`if action not in self.action_to_move: raise ValueError(...)`, then
`move = self.action_to_move[action]`) and run the rest of the method. -/
def step (push : Board → Move → Board) (s : EnvState) (action : Nat) :
    Except PyError StepResult × EnvState :=
  stepDecoded push s (action_to_move.find? (fun e => e.1 == action))

/-! ### Characterization of the move codec tables -/

/-- The move a row-major table index stands for. -/
def moveOfIndex (i : Nat) : Move := ⟨i / 64, i % 64⟩

theorem moveOfIndex_inj : Function.Injective moveOfIndex := by
  intro i j h
  simp only [moveOfIndex, Move.mk.injEq] at h
  omega

theorem range_mul_map_eq (m : Nat) :
    (List.range (m * 64)).map (fun i => Move.mk (i / 64) (i % 64))
      = (List.range m).flatMap (fun f => (List.range 64).map (fun t => Move.mk f t)) := by
  induction m with
  | zero => simp
  | succ m ih =>
    have h1 : (m + 1) * 64 = m * 64 + 64 := by ring
    rw [h1, List.range_add, List.map_append, ih,
        show List.range (m + 1) = List.range m ++ [m] from List.range_succ m,
        List.flatMap_append]
    congr 1
    simp only [List.map_map, List.flatMap_cons, List.flatMap_nil, List.append_nil]
    apply List.map_congr_left
    intro t ht
    simp only [List.mem_range] at ht
    simp only [Function.comp_apply, Move.mk.injEq]
    omega

theorem apm_eq : all_possible_moves = (List.range 4096).map moveOfIndex := by
  have h : (4096 : Nat) = 64 * 64 := by norm_num
  rw [all_possible_moves, generate_all_moves, h, ← range_mul_map_eq]
  rfl

theorem zip_self {α : Type} (l : List α) : l.zip l = l.map (fun a => (a, a)) := by
  have h := List.zip_map' id id l
  simpa using h

theorem enum_range (n : Nat) :
    (List.range n).enum = (List.range n).map (fun i => (i, i)) := by
  rw [List.enum_eq_zip_range, List.length_range, zip_self]

theorem apm_enum : all_possible_moves.enum
    = (List.range 4096).map (fun i => (i, moveOfIndex i)) := by
  rw [apm_eq, List.enum_map, enum_range, List.map_map]
  rfl

/-- The dictionary-building fold of `get_move_to_action` /
`get_action_to_move`: when all keys in the input are distinct and absent
from the accumulator, it appends every key-value pair in order. -/
theorem dict_fold_eq {α β : Type} [DecidableEq α]
    (l : List (β × α)) (acc : List (α × β))
    (hnd : (l.map Prod.snd).Nodup)
    (hacc : ∀ p ∈ l, acc.any (fun e => e.1 == p.2) = false) :
    l.foldl (fun d p => if d.any (fun e => e.1 == p.2) then d else d ++ [(p.2, p.1)]) acc
      = acc ++ l.map (fun p => (p.2, p.1)) := by
  induction l generalizing acc with
  | nil => simp
  | cons p l ih =>
    simp only [List.map_cons, List.nodup_cons] at hnd
    have h1 : acc.any (fun e => e.1 == p.2) = false := hacc p (by simp)
    simp only [List.foldl_cons, h1]
    rw [if_neg (by simp), ih (acc ++ [(p.2, p.1)]) hnd.2]
    · simp
    · intro q hq
      simp only [List.any_append, Bool.or_eq_false_iff]
      refine ⟨hacc q (by simp [hq]), ?_⟩
      simp only [List.any_cons, List.any_nil, Bool.or_eq_false_iff]
      refine ⟨?_, trivial⟩
      simp only [beq_eq_false_iff_ne, ne_eq]
      intro h
      exact hnd.1 (h ▸ List.mem_map_of_mem Prod.snd hq)

theorem find?_keyed {β : Type} (l : List Nat) (g : Nat → β) (a : Nat) :
    (l.map (fun i => (i, g i))).find? (fun e => e.1 == a)
      = if a ∈ l then some (a, g a) else none := by
  induction l with
  | nil => simp
  | cons i l ih =>
    by_cases h : i = a
    · subst h
      simp [List.find?_cons_of_pos]
    · rw [List.map_cons, List.find?_cons_of_neg _ (by simp [h]), ih]
      simp [Ne.symm h]

theorem find?_valkeyed {β : Type} [DecidableEq β] (l : List Nat) (g : Nat → β)
    (hinj : Function.Injective g) (a : Nat) (ha : a ∈ l) :
    (l.map (fun i => (g i, i))).find? (fun e => e.1 == g a) = some (g a, a) := by
  induction l with
  | nil => simp at ha
  | cons i l ih =>
    by_cases h : i = a
    · subst h
      simp [List.find?_cons_of_pos]
    · rw [List.map_cons, List.find?_cons_of_neg _
        (by simp only [beq_eq_false_iff_ne, ne_eq]
            exact fun hg => h (hinj (eq_of_beq hg)))]
      rcases List.mem_cons.mp ha with h1 | h1
      · exact absurd h1.symm h
      · exact ih h1

theorem move_to_action_eq :
    move_to_action = (List.range 4096).map (fun i => (moveOfIndex i, i)) := by
  rw [move_to_action, get_move_to_action, apm_enum, dict_fold_eq]
  · simp
  · rw [List.map_map]
    exact List.Nodup.map moveOfIndex_inj (List.nodup_range 4096)
  · intro p _
    rfl

theorem action_to_move_eq :
    action_to_move = (List.range 4096).map (fun i => (i, moveOfIndex i)) := by
  rw [action_to_move, get_action_to_move, move_to_action_eq, dict_fold_eq]
  · simp
  · have h : (Prod.snd ∘ fun i : Nat => (moveOfIndex i, i)) = id := by
      funext i
      rfl
    rw [List.map_map, h, List.map_id]
    exact List.nodup_range 4096
  · intro p _
    rfl

/-- Looking up an in-range index in `action_to_move` yields the row-major
move for that index. -/
theorem action_find_lt (a : Nat) (h : a < 4096) :
    action_to_move.find? (fun e => e.1 == a) = some (a, moveOfIndex a) := by
  rw [action_to_move_eq, find?_keyed]
  simp [h]

/-- Looking up an out-of-range index in `action_to_move` fails. -/
theorem action_find_ge (a : Nat) (h : 4096 ≤ a) :
    action_to_move.find? (fun e => e.1 == a) = none := by
  rw [action_to_move_eq, find?_keyed]
  have : a ∉ List.range 4096 := by simp; omega
  simp [this]

/-- Looking up a 64 x 64 move in `move_to_action` yields its row-major
index `64 * from + to`. -/
theorem mta_find (m : Move) (hf : m.fromSq < 64) (ht : m.toSq < 64) :
    move_to_action.find? (fun e => e.1 == m) = some (m, 64 * m.fromSq + m.toSq) := by
  have ha : 64 * m.fromSq + m.toSq ∈ List.range 4096 := by
    simp only [List.mem_range]
    omega
  have h2 : moveOfIndex (64 * m.fromSq + m.toSq) = m := by
    cases m with
    | mk f t =>
      simp only [moveOfIndex, Move.mk.injEq]
      simp only at hf ht
      omega
  have h3 := find?_valkeyed (List.range 4096) moveOfIndex moveOfIndex_inj
    (64 * m.fromSq + m.toSq) ha
  rw [h2] at h3
  rw [move_to_action_eq]
  exact h3

/-! ### Grid read/write lemmas for the board encoder -/

/-- Well-formedness of the 8 x 8 observation grid. -/
def WfGrid (o : List (List Int)) : Prop :=
  o.length = 8 ∧ ∀ row ∈ o, row.length = 8

theorem wfGrid_emptyObs : WfGrid emptyObs := by
  constructor
  · rfl
  · intro row hrow
    simp only [emptyObs, List.mem_replicate] at hrow
    rw [hrow.2]
    rfl

theorem wfGrid_obsSet (o : List (List Int)) (r c : Nat) (v : Int) (h : WfGrid o) :
    WfGrid (obsSet o r c v) := by
  unfold obsSet
  cases ho : o[r]? with
  | none => exact h
  | some row =>
    refine ⟨by rw [List.length_set]; exact h.1, ?_⟩
    intro row2 hrow2
    rcases List.mem_or_eq_of_mem_set hrow2 with h2 | h2
    · exact h.2 row2 h2
    · rw [h2, List.length_set]
      exact h.2 row (List.getElem?_mem ho)

theorem obsGet_obsSet (o : List (List Int)) (r c r2 c2 : Nat) (v : Int)
    (h : WfGrid o) (hr : r < 8) (hc : c < 8) :
    obsGet (obsSet o r c v) r2 c2
      = if r = r2 ∧ c = c2 then v else obsGet o r2 c2 := by
  have hr' : r < o.length := by rw [h.1]; exact hr
  cases hrow : o[r]? with
  | none =>
    rw [List.getElem?_eq_none_iff] at hrow
    omega
  | some row =>
  have hrowlen : row.length = 8 := h.2 row (List.getElem?_mem hrow)
  unfold obsSet obsGet
  rw [hrow]
  by_cases h2 : r = r2
  · subst h2
    rw [List.getElem?_set_self', hrow]
    simp only [Option.map_some, Option.getD_some, Function.const_apply]
    by_cases h3 : c = c2
    · subst h3
      rw [List.getElem?_set_self']
      cases hx : row[c]? with
      | none =>
        rw [List.getElem?_eq_none_iff] at hx
        omega
      | some x =>
        simp
    · rw [List.getElem?_set_ne h3]
      simp [h3]
  · rw [List.getElem?_set_ne h2]
    simp [h2]

theorem obsGet_emptyObs (r c : Nat) : obsGet emptyObs r c = 0 := by
  unfold obsGet emptyObs
  rw [List.getElem?_replicate]
  by_cases h : r < 8
  · simp only [if_pos h, Option.getD_some]
    rw [List.getElem?_replicate]
    by_cases h2 : c < 8
    · simp [h2]
    · simp [h2]
  · simp only [if_neg h, Option.getD_none]
    simp

theorem fold_obs_read (l : List (Nat × Piece)) (acc : List (List Int))
    (hwf : WfGrid acc) (hsq : ∀ e ∈ l, e.1 < 64)
    (hnd : (l.map Prod.fst).Nodup) (r c : Nat) (hr : r < 8) (hc : c < 8) :
    obsGet (l.foldl (fun o e => obsSet o (7 - e.1 / 8) (e.1 % 8) (pieces e.2.symbol)) acc) r c
      = match l.find? (fun e => e.1 == (7 - r) * 8 + c) with
        | some e => pieces e.2.symbol
        | none => obsGet acc r c := by
  induction l generalizing acc with
  | nil => simp
  | cons e l ih =>
    simp only [List.map_cons, List.nodup_cons] at hnd
    have hsq1 : e.1 < 64 := hsq e (by simp)
    rw [List.foldl_cons,
        ih _ (wfGrid_obsSet acc _ _ _ hwf) (fun q hq => hsq q (by simp [hq])) hnd.2]
    by_cases hkey : e.1 = (7 - r) * 8 + c
    · have htr : 7 - e.1 / 8 = r := by omega
      have htc : e.1 % 8 = c := by omega
      rw [List.find?_cons_of_pos _ (by simp [hkey])]
      have hnone : l.find? (fun q => q.1 == (7 - r) * 8 + c) = none := by
        rw [List.find?_eq_none]
        intro q hq
        simp only [beq_iff_eq]
        intro hq2
        exact hnd.1 (by rw [← hkey] at hq2; exact hq2 ▸ List.mem_map_of_mem Prod.fst hq)
      rw [hnone, obsGet_obsSet acc _ _ _ _ _ hwf (by omega) (by omega)]
      simp [htr, htc]
    · rw [List.find?_cons_of_neg _ (by simp [hkey])]
      cases hfind : l.find? (fun q => q.1 == (7 - r) * 8 + c) with
      | some q => rfl
      | none =>
        rw [obsGet_obsSet acc _ _ _ _ _ hwf (by omega) (by omega)]
        have : ¬(7 - e.1 / 8 = r ∧ e.1 % 8 = c) := by omega
        simp [this]

/-! ### Concrete positions used by the claims

For boards that only feed the reward functions, `legalMoves` lists the
moves the statements consult (membership of the single move under study);
the reward functions never read `legalMoves`. -/

/-- The position after 1. e4 from the start (engine state after pushing
`e2e4`): used to evaluate `reward_for_capture` on a quiet move. -/
def afterE2E4Board : Board where
  pieceMap :=
    [(0, ⟨4, true⟩), (1, ⟨2, true⟩), (2, ⟨3, true⟩), (3, ⟨5, true⟩),
     (4, ⟨6, true⟩), (5, ⟨3, true⟩), (6, ⟨2, true⟩), (7, ⟨4, true⟩),
     (8, ⟨1, true⟩), (9, ⟨1, true⟩), (10, ⟨1, true⟩), (11, ⟨1, true⟩),
     (13, ⟨1, true⟩), (14, ⟨1, true⟩), (15, ⟨1, true⟩), (28, ⟨1, true⟩),
     (48, ⟨1, false⟩), (49, ⟨1, false⟩), (50, ⟨1, false⟩), (51, ⟨1, false⟩),
     (52, ⟨1, false⟩), (53, ⟨1, false⟩), (54, ⟨1, false⟩), (55, ⟨1, false⟩),
     (56, ⟨4, false⟩), (57, ⟨2, false⟩), (58, ⟨3, false⟩), (59, ⟨5, false⟩),
     (60, ⟨6, false⟩), (61, ⟨3, false⟩), (62, ⟨2, false⟩), (63, ⟨4, false⟩)]
  turn := false
  isCheck := false
  isCheckmate := false
  isStalemate := false
  isInsufficientMaterial := false
  isGameOver := false
  legalMoves :=
    [⟨48, 40⟩, ⟨48, 32⟩, ⟨49, 41⟩, ⟨49, 33⟩, ⟨50, 42⟩, ⟨50, 34⟩, ⟨51, 43⟩,
     ⟨51, 35⟩, ⟨52, 44⟩, ⟨52, 36⟩, ⟨53, 45⟩, ⟨53, 37⟩, ⟨54, 46⟩, ⟨54, 38⟩,
     ⟨55, 47⟩, ⟨55, 39⟩, ⟨57, 40⟩, ⟨57, 42⟩, ⟨62, 45⟩, ⟨62, 47⟩]
  fullmoveNumber := 1
  result := "*"
  fen := "rnbqkbnr/pppppppp/8/8/4P3/8/PPPP1PPP/RNBQKBNR b KQkq e3 0 1"
  castlingRights := 9295429630892703873
  epSquare := some 20

/-- The spec's capture-reward FEN
`rnbqkbnr/ppp1pppp/8/3p4/4P3/8/PPPP1PPP/RNBQKBNR w KQkq - 0 2`
(White pawn e4, Black pawn d5, White to move). -/
def capFenPrev : Board where
  pieceMap :=
    [(0, ⟨4, true⟩), (1, ⟨2, true⟩), (2, ⟨3, true⟩), (3, ⟨5, true⟩),
     (4, ⟨6, true⟩), (5, ⟨3, true⟩), (6, ⟨2, true⟩), (7, ⟨4, true⟩),
     (8, ⟨1, true⟩), (9, ⟨1, true⟩), (10, ⟨1, true⟩), (11, ⟨1, true⟩),
     (13, ⟨1, true⟩), (14, ⟨1, true⟩), (15, ⟨1, true⟩), (28, ⟨1, true⟩),
     (35, ⟨1, false⟩),
     (48, ⟨1, false⟩), (49, ⟨1, false⟩), (50, ⟨1, false⟩),
     (52, ⟨1, false⟩), (53, ⟨1, false⟩), (54, ⟨1, false⟩), (55, ⟨1, false⟩),
     (56, ⟨4, false⟩), (57, ⟨2, false⟩), (58, ⟨3, false⟩), (59, ⟨5, false⟩),
     (60, ⟨6, false⟩), (61, ⟨3, false⟩), (62, ⟨2, false⟩), (63, ⟨4, false⟩)]
  turn := true
  isCheck := false
  isCheckmate := false
  isStalemate := false
  isInsufficientMaterial := false
  isGameOver := false
  legalMoves := [⟨28, 35⟩]
  fullmoveNumber := 2
  result := "*"
  fen := "rnbqkbnr/ppp1pppp/8/3p4/4P3/8/PPPP1PPP/RNBQKBNR w KQkq - 0 2"
  castlingRights := 9295429630892703873
  epSquare := none

/-- The same position after pushing `e4d5` (White pawn captures on d5). -/
def capFenPost : Board where
  pieceMap :=
    [(0, ⟨4, true⟩), (1, ⟨2, true⟩), (2, ⟨3, true⟩), (3, ⟨5, true⟩),
     (4, ⟨6, true⟩), (5, ⟨3, true⟩), (6, ⟨2, true⟩), (7, ⟨4, true⟩),
     (8, ⟨1, true⟩), (9, ⟨1, true⟩), (10, ⟨1, true⟩), (11, ⟨1, true⟩),
     (13, ⟨1, true⟩), (14, ⟨1, true⟩), (15, ⟨1, true⟩), (35, ⟨1, true⟩),
     (48, ⟨1, false⟩), (49, ⟨1, false⟩), (50, ⟨1, false⟩),
     (52, ⟨1, false⟩), (53, ⟨1, false⟩), (54, ⟨1, false⟩), (55, ⟨1, false⟩),
     (56, ⟨4, false⟩), (57, ⟨2, false⟩), (58, ⟨3, false⟩), (59, ⟨5, false⟩),
     (60, ⟨6, false⟩), (61, ⟨3, false⟩), (62, ⟨2, false⟩), (63, ⟨4, false⟩)]
  turn := false
  isCheck := false
  isCheckmate := false
  isStalemate := false
  isInsufficientMaterial := false
  isGameOver := false
  legalMoves := []
  fullmoveNumber := 2
  result := "*"
  fen := "rnbqkbnr/ppp1pppp/8/3P4/8/8/PPPP1PPP/RNBQKBNR b KQkq - 0 2"
  castlingRights := 9295429630892703873
  epSquare := none

/-- Scholar's mate, position before White's mating move 4. Qxf7#
(1. e4 e5 2. Bc4 Nc6 3. Qh5 Nf6): White queen h5 (39), bishop c4 (26),
pawn e4 (28); Black pawn e5 (36), knights c6 (42) and f6 (45). -/
def scholarPrev : Board where
  pieceMap :=
    [(0, ⟨4, true⟩), (1, ⟨2, true⟩), (2, ⟨3, true⟩),
     (4, ⟨6, true⟩), (6, ⟨2, true⟩), (7, ⟨4, true⟩),
     (8, ⟨1, true⟩), (9, ⟨1, true⟩), (10, ⟨1, true⟩), (11, ⟨1, true⟩),
     (13, ⟨1, true⟩), (14, ⟨1, true⟩), (15, ⟨1, true⟩),
     (26, ⟨3, true⟩), (28, ⟨1, true⟩), (36, ⟨1, false⟩), (39, ⟨5, true⟩),
     (42, ⟨2, false⟩), (45, ⟨2, false⟩),
     (48, ⟨1, false⟩), (49, ⟨1, false⟩), (50, ⟨1, false⟩), (51, ⟨1, false⟩),
     (53, ⟨1, false⟩), (54, ⟨1, false⟩), (55, ⟨1, false⟩),
     (56, ⟨4, false⟩), (58, ⟨3, false⟩), (59, ⟨5, false⟩),
     (60, ⟨6, false⟩), (61, ⟨3, false⟩), (63, ⟨4, false⟩)]
  turn := true
  isCheck := false
  isCheckmate := false
  isStalemate := false
  isInsufficientMaterial := false
  isGameOver := false
  legalMoves := [⟨39, 53⟩]
  fullmoveNumber := 4
  result := "*"
  fen := "r1bqkb1r/pppp1ppp/2n2n2/4p2Q/2B1P3/8/PPPP1PPP/RNB1K1NR w KQkq - 4 4"
  castlingRights := 9295429630892703873
  epSquare := none

/-- Scholar's mate, position after pushing `h5f7` (Qxf7#): Black is
checkmated, the engine reports result 1-0. -/
def scholarPost : Board where
  pieceMap :=
    [(0, ⟨4, true⟩), (1, ⟨2, true⟩), (2, ⟨3, true⟩),
     (4, ⟨6, true⟩), (6, ⟨2, true⟩), (7, ⟨4, true⟩),
     (8, ⟨1, true⟩), (9, ⟨1, true⟩), (10, ⟨1, true⟩), (11, ⟨1, true⟩),
     (13, ⟨1, true⟩), (14, ⟨1, true⟩), (15, ⟨1, true⟩),
     (26, ⟨3, true⟩), (28, ⟨1, true⟩), (36, ⟨1, false⟩),
     (42, ⟨2, false⟩), (45, ⟨2, false⟩),
     (48, ⟨1, false⟩), (49, ⟨1, false⟩), (50, ⟨1, false⟩), (51, ⟨1, false⟩),
     (53, ⟨5, true⟩), (54, ⟨1, false⟩), (55, ⟨1, false⟩),
     (56, ⟨4, false⟩), (58, ⟨3, false⟩), (59, ⟨5, false⟩),
     (60, ⟨6, false⟩), (61, ⟨3, false⟩), (63, ⟨4, false⟩)]
  turn := false
  isCheck := true
  isCheckmate := true
  isStalemate := false
  isInsufficientMaterial := false
  isGameOver := true
  legalMoves := []
  fullmoveNumber := 4
  result := "1-0"
  fen := "r1bqkb1r/pppp1Qpp/2n2n2/4p3/2B1P3/8/PPPP1PPP/RNB1K1NR b KQkq - 0 4"
  castlingRights := 9295429630892703873
  epSquare := none

/-- The engine `push` oracle for the scholar's-mate step: pushing the
mating move on `scholarPrev` yields `scholarPost`. -/
def scholarPush : Board → Move → Board := fun _ _ => scholarPost

/-- Bare position with a White king on e4 (28), a Black pawn on d5 (35)
and a Black king on h8 (63), White to move. -/
def ksCexBoard : Board where
  pieceMap := [(28, ⟨6, true⟩), (35, ⟨1, false⟩), (63, ⟨6, false⟩)]
  turn := true
  isCheck := false
  isCheckmate := false
  isStalemate := false
  isInsufficientMaterial := false
  isGameOver := false
  legalMoves := []
  fullmoveNumber := 1
  result := "*"
  fen := "7k/8/8/3p4/4K3/8/8/8 w - - 0 1"
  castlingRights := 0
  epSquare := none

/-! ### Evaluation of the reward terms on the scholar's-mate step

Inside `step`, `compute_reward` runs after `self.board.push(move)` and after
`self.current_player = not self.current_player`, so its `board` is the
post-move position and its `current_player` is the opponent of the player
who just moved (here: Black, while White played the mating move). -/

theorem scholar_capture :
    reward_for_capture scholarPost false ⟨39, 53⟩ scholarPrev = some 0 := rfl

theorem scholar_mb_prev : calculate_material_balance scholarPrev false = 0 := by
  simp only [calculate_material_balance, scholarPrev, List.foldl_cons, List.foldl_nil,
    material_piece_values]
  norm_num

theorem scholar_mb_post : calculate_material_balance scholarPost false = -1/39 := by
  simp only [calculate_material_balance, scholarPost, List.foldl_cons, List.foldl_nil,
    material_piece_values]
  norm_num

theorem scholar_cc_prev : calculate_central_control scholarPrev false = 3/10 := by
  have h : calculate_central_control scholarPrev false = 0 + 1/10 + 1/10 + 1/10 := rfl
  rw [h]
  norm_num

theorem scholar_cc_post : calculate_central_control scholarPost false = 3/10 := by
  have h : calculate_central_control scholarPost false = 0 + 1/10 + 1/10 + 1/10 := rfl
  rw [h]
  norm_num

theorem scholar_ks_prev : calculate_king_safety scholarPrev false = some (2/5) := by
  have h : calculate_king_safety scholarPrev false = some (0 + 1/5 + 1/5) := rfl
  rw [h]
  norm_num

theorem scholar_ks_post : calculate_king_safety scholarPost false = some (1/5) := by
  have h : calculate_king_safety scholarPost false = some (0 + 1/5) := rfl
  rw [h]
  norm_num

theorem scholar_position :
    reward_for_position scholarPost false scholarPrev = some (-1/39 - 1/5) := by
  simp only [reward_for_position, scholar_ks_prev, scholar_ks_post, scholar_mb_prev,
    scholar_mb_post, scholar_cc_prev, scholar_cc_post]
  norm_num

/-- Total reward of the mating step, with the terminal bonus left visible:
the checkmate branch contributes -1 (because `board.turn` equals the
flipped `current_player`), the capture reward is 0 (the captured pawn's
color equals the flipped `current_player`), the check reward is 0.5, and
the positional delta is -1/39 - 1/5, all from Black's perspective. -/
theorem scholar_reward :
    compute_reward scholarPost false ⟨39, 53⟩ scholarPrev
      = some (-1 + 0 + 1/2 + (-1/39 - 1/5)) := by
  have hc : scholarPost.isCheckmate = true := rfl
  have ht : (scholarPost.turn != false) = false := rfl
  have hch : scholarPost.isCheck = true := rfl
  simp only [compute_reward, scholar_capture, scholar_position, reward_for_check,
    hc, ht, hch, if_true, Bool.false_eq_true, if_false]

theorem scholar_reward_value :
    compute_reward scholarPost false ⟨39, 53⟩ scholarPrev = some (-283/390) := by
  rw [scholar_reward]
  norm_num

theorem scholar_decode :
    action_to_move.find? (fun e => e.1 == 2549) = some (2549, ⟨39, 53⟩) := by
  have h := action_find_lt 2549 (by norm_num)
  rw [h]
  rfl

/-! ### Branch lemmas for `step` -/

theorem step_eq (push : Board → Move → Board) (s : EnvState) (a : Nat) :
    step push s a = stepDecoded push s (action_to_move.find? (fun e => e.1 == a)) := rfl

theorem stepDecoded_none (push : Board → Move → Board) (s : EnvState) :
    stepDecoded push s none
      = (Except.error (PyError.valueError "Invalid action index"), s) := rfl

/-- The "too many illegal moves" branch: decoded action, no draw
short-circuit, counter strictly above `max 5 (fullmove // 2)`. -/
theorem stepDecoded_threshold (push : Board → Move → Board) (s : EnvState)
    (a : Nat) (m : Move)
    (hdraw : (s.board.isStalemate || s.board.isInsufficientMaterial) = false)
    (hth : s.illegal_moves_count > max 5 (s.board.fullmoveNumber / 2)) :
    stepDecoded push s (some (a, m))
      = (Except.ok
          { observation := get_observation s.board
            reward := -1
            terminated := true
            truncated := false
            info :=
              { reason := some "too many illegal moves"
                draw_reason := none
                illegal_moves := s.illegal_moves_count
                total_moves_made := s.board.fullmoveNumber
                in_check := s.board.isCheck
                winner := none } }, s) := by
  unfold stepDecoded
  rw [hdraw]
  simp [hth]

/-- The illegal-move branch: decoded action, no draw short-circuit,
counter not above the threshold, move not legal. -/
theorem stepDecoded_illegal (push : Board → Move → Board) (s : EnvState)
    (a : Nat) (m : Move)
    (hdraw : (s.board.isStalemate || s.board.isInsufficientMaterial) = false)
    (hth : ¬ s.illegal_moves_count > max 5 (s.board.fullmoveNumber / 2))
    (hmem : m ∉ s.board.legalMoves) :
    stepDecoded push s (some (a, m))
      = (Except.ok
          { observation := get_observation s.board
            reward := -(1/10)
            terminated := false
            truncated := false
            info :=
              { reason := some "illegal move"
                draw_reason := none
                illegal_moves := s.illegal_moves_count
                total_moves_made := s.board.fullmoveNumber
                in_check := s.board.isCheck
                winner := none } },
         { s with illegal_moves_count := s.illegal_moves_count + 1 }) := by
  unfold stepDecoded
  rw [hdraw]
  simp [hth, hmem]

/-- The legal-move branch: the move is pushed, the player flipped, and
`compute_reward` runs against the flipped player. -/
theorem stepDecoded_legal (push : Board → Move → Board) (s : EnvState)
    (a : Nat) (m : Move) (r : ℚ)
    (hdraw : (s.board.isStalemate || s.board.isInsufficientMaterial) = false)
    (hth : ¬ s.illegal_moves_count > max 5 (s.board.fullmoveNumber / 2))
    (hmem : m ∈ s.board.legalMoves)
    (hcr : compute_reward (push s.board m) (!s.current_player) m s.board = some r) :
    stepDecoded push s (some (a, m))
      = (Except.ok
          { observation := get_observation (push s.board m)
            reward := r
            terminated := (push s.board m).isGameOver
            truncated := false
            info :=
              { reason := none
                draw_reason := none
                illegal_moves := s.illegal_moves_count
                total_moves_made := (push s.board m).fullmoveNumber
                in_check := (push s.board m).isCheck
                winner :=
                  if (push s.board m).isGameOver then
                    some (if (push s.board m).result == "1-0" then "white"
                          else if (push s.board m).result == "0-1" then "black"
                          else "draw")
                  else none } },
         { board := push s.board m
           current_player := !s.current_player
           illegal_moves_count := s.illegal_moves_count }) := by
  unfold stepDecoded
  rw [hdraw]
  simp [hth, hmem, hcr]

/-! ### Claim theorems -/

/-- C1.  The claim asserts that a `step` whose resulting position is
checkmate returns, through `compute_reward`, a terminal bonus of +1 for the
player who made the winning move.  The code does the opposite: `step` flips
`self.current_player` before calling `compute_reward`, so on the mating
move (scholar's mate, White plays Qxf7#, action 2549 = 64 * 39 + 53) the
checkmate branch finds `board.turn == current_player` (both are Black) and
adds -1, even though the info dictionary reports winner "white".  The
returned reward is -1 + 0 + 1/2 + (-1/39 - 1/5) = -283/390; `terminated`
is true as claimed. -/
theorem C1_checkmate_terminal_bonus_bug :
    step scholarPush ⟨scholarPrev, true, 0⟩ 2549
      = (Except.ok
          { observation := get_observation scholarPost
            reward := -283/390
            terminated := true
            truncated := false
            info :=
              { reason := none
                draw_reason := none
                illegal_moves := 0
                total_moves_made := 4
                in_check := true
                winner := some "white" } },
         { board := scholarPost, current_player := false, illegal_moves_count := 0 })
    ∧ compute_reward scholarPost false ⟨39, 53⟩ scholarPrev
        = some (-1 + 0 + 1/2 + (-1/39 - 1/5))
    ∧ scholarPost.isCheckmate = true
    ∧ scholarPrev.turn = true
    ∧ scholarPost.result = "1-0"
    ∧ (-283/390 : ℚ) < 0 := by
  refine ⟨?_, scholar_reward, rfl, rfl, rfl, by norm_num⟩
  rw [step_eq, scholar_decode,
      stepDecoded_legal scholarPush ⟨scholarPrev, true, 0⟩ 2549 ⟨39, 53⟩ (-283/390)
        rfl (by decide) (by decide) scholar_reward_value]
  rfl

/-- C5.  The forward map assigns the row-major index `64 * from + to`
(from-square outer loop, to-square inner loop); decoding that index returns
the same move, and decoding any index at or beyond 4096 (hence outside the
constructed table) raises the `ValueError` the spec calls `InvalidAction`. -/
theorem C5_move_codec_roundtrip (f t a : Nat) (hf : f < 64) (ht : t < 64)
    (ha : 4096 ≤ a) :
    moveToActionLookup ⟨f, t⟩ = some (64 * f + t)
    ∧ decode_action (64 * f + t) = Except.ok ⟨f, t⟩
    ∧ decode_action a = Except.error "Invalid action index" := by
  have hmove : moveOfIndex (64 * f + t) = ⟨f, t⟩ := by
    simp only [moveOfIndex, Move.mk.injEq]
    omega
  refine ⟨?_, ?_, ?_⟩
  · show (move_to_action.find? (fun e => e.1 == (⟨f, t⟩ : Move))).map (fun e => e.2)
      = some (64 * f + t)
    rw [mta_find ⟨f, t⟩ hf ht]
    rfl
  · show decodeResult (action_to_move.find? (fun e => e.1 == 64 * f + t))
      = Except.ok ⟨f, t⟩
    rw [action_find_lt (64 * f + t) (by omega), decodeResult, hmove]
  · show decodeResult (action_to_move.find? (fun e => e.1 == a))
      = Except.error "Invalid action index"
    rw [action_find_ge a ha]
    rfl

theorem C5_move_codec_roundtrip_witness :
    (1 : Nat) < 64 ∧ (2 : Nat) < 64 ∧ (4096 : Nat) ≤ 9999
    ∧ (moveToActionLookup ⟨1, 2⟩ = some 66
       ∧ decode_action 66 = Except.ok ⟨1, 2⟩
       ∧ decode_action 9999 = Except.error "Invalid action index") :=
  ⟨by decide, by decide, by decide,
   C5_move_codec_roundtrip 1 2 9999 (by decide) (by decide) (by decide)⟩

/-- C9.  An action index outside the populated table (equivalently, at or
beyond 4096) makes `step` raise the `ValueError` (`InvalidAction`); the
returned instance state is exactly the input state: board, player flag and
illegal-move counter are untouched, and the error is not recovered. -/
theorem C9_invalid_action_raises (push : Board → Move → Board) (s : EnvState)
    (a : Nat) (ha : 4096 ≤ a) :
    step push s a = (Except.error (PyError.valueError "Invalid action index"), s) := by
  rw [step_eq, action_find_ge a ha, stepDecoded_none]

theorem C9_invalid_action_raises_witness :
    (4096 : Nat) ≤ 9999
    ∧ step (fun b _ => b) ⟨startingBoard, true, 0⟩ 9999
      = (Except.error (PyError.valueError "Invalid action index"),
         ⟨startingBoard, true, 0⟩) :=
  ⟨by decide, C9_invalid_action_raises (fun b _ => b) ⟨startingBoard, true, 0⟩ 9999 (by decide)⟩

/-- C6.  A decodable action whose move is not in the engine's legal-move
set, with no draw short-circuit and the counter not above the threshold:
`step` returns reward -0.1, terminated false, reason "illegal move", the
counter is incremented by exactly one, and the board and player flag of the
resulting state are those of the input state. -/
theorem C6_illegal_move_frame (push : Board → Move → Board) (s : EnvState)
    (a : Nat) (m : Move)
    (hdec : action_to_move.find? (fun e => e.1 == a) = some (a, m))
    (hdraw : (s.board.isStalemate || s.board.isInsufficientMaterial) = false)
    (hth : ¬ s.illegal_moves_count > max 5 (s.board.fullmoveNumber / 2))
    (hmem : m ∉ s.board.legalMoves) :
    step push s a
      = (Except.ok
          { observation := get_observation s.board
            reward := -(1/10)
            terminated := false
            truncated := false
            info :=
              { reason := some "illegal move"
                draw_reason := none
                illegal_moves := s.illegal_moves_count
                total_moves_made := s.board.fullmoveNumber
                in_check := s.board.isCheck
                winner := none } },
         { s with illegal_moves_count := s.illegal_moves_count + 1 })
    ∧ (step push s a).2.board = s.board
    ∧ (step push s a).2.current_player = s.current_player
    ∧ (step push s a).2.illegal_moves_count = s.illegal_moves_count + 1 := by
  refine ⟨?_, ?_, ?_, ?_⟩ <;>
    rw [step_eq, hdec, stepDecoded_illegal push s a m hdraw hth hmem]

theorem decode16 : action_to_move.find? (fun e => e.1 == 16) = some (16, ⟨0, 16⟩) := by
  rw [action_find_lt 16 (by norm_num)]
  rfl

theorem decode8 : action_to_move.find? (fun e => e.1 == 8) = some (8, ⟨0, 8⟩) := by
  rw [action_find_lt 8 (by norm_num)]
  rfl

theorem C6_illegal_move_frame_witness :
    action_to_move.find? (fun e => e.1 == 16) = some (16, ⟨0, 16⟩)
    ∧ (startingBoard.isStalemate || startingBoard.isInsufficientMaterial) = false
    ∧ ¬ (0 : Nat) > max 5 (startingBoard.fullmoveNumber / 2)
    ∧ (⟨0, 16⟩ : Move) ∉ startingBoard.legalMoves
    ∧ (step (fun b _ => b) ⟨startingBoard, true, 0⟩ 16
        = (Except.ok
            { observation := get_observation startingBoard
              reward := -(1/10)
              terminated := false
              truncated := false
              info :=
                { reason := some "illegal move"
                  draw_reason := none
                  illegal_moves := 0
                  total_moves_made := 1
                  in_check := false
                  winner := none } },
           ⟨startingBoard, true, 1⟩)
       ∧ (step (fun b _ => b) ⟨startingBoard, true, 0⟩ 16).2.board = startingBoard
       ∧ (step (fun b _ => b) ⟨startingBoard, true, 0⟩ 16).2.current_player = true
       ∧ (step (fun b _ => b) ⟨startingBoard, true, 0⟩ 16).2.illegal_moves_count = 0 + 1) :=
  ⟨decode16, rfl, by decide, by decide,
   C6_illegal_move_frame (fun b _ => b) ⟨startingBoard, true, 0⟩ 16 ⟨0, 16⟩
     decode16 rfl (by decide) (by decide)⟩

/-- C7.  The threshold is `max 5 (fullmove_number // 2)`; when the counter
already exceeds it (and the action decodes, and there is no draw
short-circuit), `step` terminates the episode with reward -1 and reason
"too many illegal moves", and the returned state is the input state: the
submitted action's move is never evaluated against the position. -/
theorem C7_threshold_termination (push : Board → Move → Board) (s : EnvState)
    (a : Nat) (m : Move)
    (hdec : action_to_move.find? (fun e => e.1 == a) = some (a, m))
    (hdraw : (s.board.isStalemate || s.board.isInsufficientMaterial) = false)
    (hth : s.illegal_moves_count > max 5 (s.board.fullmoveNumber / 2)) :
    step push s a
      = (Except.ok
          { observation := get_observation s.board
            reward := -1
            terminated := true
            truncated := false
            info :=
              { reason := some "too many illegal moves"
                draw_reason := none
                illegal_moves := s.illegal_moves_count
                total_moves_made := s.board.fullmoveNumber
                in_check := s.board.isCheck
                winner := none } }, s) := by
  rw [step_eq, hdec, stepDecoded_threshold push s a m hdraw hth]

theorem C7_threshold_termination_witness :
    action_to_move.find? (fun e => e.1 == 16) = some (16, ⟨0, 16⟩)
    ∧ (startingBoard.isStalemate || startingBoard.isInsufficientMaterial) = false
    ∧ (6 : Nat) > max 5 (startingBoard.fullmoveNumber / 2)
    ∧ step (fun b _ => b) ⟨startingBoard, true, 6⟩ 16
      = (Except.ok
          { observation := get_observation startingBoard
            reward := -1
            terminated := true
            truncated := false
            info :=
              { reason := some "too many illegal moves"
                draw_reason := none
                illegal_moves := 6
                total_moves_made := 1
                in_check := false
                winner := none } }, ⟨startingBoard, true, 6⟩) :=
  ⟨decode16, rfl, by decide,
   C7_threshold_termination (fun b _ => b) ⟨startingBoard, true, 6⟩ 16 ⟨0, 16⟩
     decode16 rfl (by decide)⟩

/-- C10.  On the illegal-move branch the info dictionary is built before
`self.illegal_moves_count += 1`, so the reported "illegal_moves" value is
the pre-increment counter: exactly one less than the environment's counter
after the call. -/
theorem C10_illegal_info_preincrement (push : Board → Move → Board) (s : EnvState)
    (a : Nat) (m : Move)
    (hdec : action_to_move.find? (fun e => e.1 == a) = some (a, m))
    (hdraw : (s.board.isStalemate || s.board.isInsufficientMaterial) = false)
    (hth : ¬ s.illegal_moves_count > max 5 (s.board.fullmoveNumber / 2))
    (hmem : m ∉ s.board.legalMoves) :
    (step push s a).1
      = Except.ok
          { observation := get_observation s.board
            reward := -(1/10)
            terminated := false
            truncated := false
            info :=
              { reason := some "illegal move"
                draw_reason := none
                illegal_moves := s.illegal_moves_count
                total_moves_made := s.board.fullmoveNumber
                in_check := s.board.isCheck
                winner := none } }
    ∧ (step push s a).2.illegal_moves_count = s.illegal_moves_count + 1
    ∧ s.illegal_moves_count = ((step push s a).2.illegal_moves_count) - 1 := by
  refine ⟨?_, ?_, ?_⟩ <;>
    rw [step_eq, hdec, stepDecoded_illegal push s a m hdraw hth hmem]
  show s.illegal_moves_count = s.illegal_moves_count + 1 - 1
  omega

theorem C10_illegal_info_preincrement_witness :
    action_to_move.find? (fun e => e.1 == 8) = some (8, ⟨0, 8⟩)
    ∧ (startingBoard.isStalemate || startingBoard.isInsufficientMaterial) = false
    ∧ ¬ (3 : Nat) > max 5 (startingBoard.fullmoveNumber / 2)
    ∧ (⟨0, 8⟩ : Move) ∉ startingBoard.legalMoves
    ∧ ((step (fun b _ => b) ⟨startingBoard, true, 3⟩ 8).1
        = Except.ok
            { observation := get_observation startingBoard
              reward := -(1/10)
              terminated := false
              truncated := false
              info :=
                { reason := some "illegal move"
                  draw_reason := none
                  illegal_moves := 3
                  total_moves_made := 1
                  in_check := false
                  winner := none } }
       ∧ (step (fun b _ => b) ⟨startingBoard, true, 3⟩ 8).2.illegal_moves_count = 3 + 1
       ∧ (3 : Nat) = ((step (fun b _ => b) ⟨startingBoard, true, 3⟩ 8).2.illegal_moves_count) - 1) :=
  ⟨decode8, rfl, by decide, by decide,
   C10_illegal_info_preincrement (fun b _ => b) ⟨startingBoard, true, 3⟩ 8 ⟨0, 8⟩
     decode8 rfl (by decide) (by decide)⟩

/-- C2 counterexample.  The claim says `reset` sets the illegal-move
counter to 0; the method body never touches `self.illegal_moves_count`
(it is zeroed only in `__init__`), so resetting an environment whose
counter is 7 leaves it at 7. -/
theorem C2_reset_counter_cex :
    (reset ⟨scholarPost, false, 7⟩).1.illegal_moves_count = 7 ∧ (7 : Nat) ≠ 0 :=
  ⟨rfl, by decide⟩

/-- C2 amended.  `reset` reinitializes the Position to the standard
starting layout, sets the current player to White and returns the fresh
observation with the starting FEN, starting player "white", the castling
rights and the (empty) en-passant square; it always succeeds; but it
leaves the illegal-move counter unchanged. -/
theorem C2_reset_amended (s : EnvState) :
    reset s
      = ({ board := startingBoard
           current_player := true
           illegal_moves_count := s.illegal_moves_count },
         get_observation startingBoard,
         { initial_board_fen := "rnbqkbnr/pppppppp/8/8/8/8/PPPPPPPP/RNBQKBNR w KQkq - 0 1"
           starting_player := "white"
           castling_rights := 9295429630892703873
           en_passant_square := none }) := rfl

/-- C3 counterexample.  The claim says `reward_for_capture` returns 0 for
non-captures.  At every call site `self.board` is the position with the
move already pushed, where the engine's `is_capture` is true for any
just-played move; for the quiet opening move e2e4 the pre-move board has
no piece on e4 (square 28), so the code evaluates `None.symbol()` and
raises `AttributeError` instead of returning 0. -/
theorem C3_capture_reward_cex :
    reward_for_capture afterE2E4Board true ⟨12, 28⟩ startingBoard = none
    ∧ afterE2E4Board.isCapture ⟨12, 28⟩ = true
    ∧ startingBoard.pieceAt 28 = none
    ∧ (none : Option ℚ) ≠ some 0 :=
  ⟨rfl, rfl, rfl, by simp⟩

/-- The amended capture-reward specification: if the capture test
(evaluated on the given post-move position) fails, return 0; otherwise
look up the pre-move piece on the target square and return its value
(pawn 0.1, knight/bishop 0.3, rook 0.5, queen 0.9) when it belongs to the
opponent, 0 when it belongs to the mover - and raise (no value) when that
square was empty on the pre-move board, which is the case for quiet moves
and for en-passant captures. -/
def reward_for_capture_model (board : Board) (current_player : Bool) (m : Move)
    (previous_board : Board) : Option ℚ :=
  if board.isCapture m = false then some 0
  else
    (previous_board.pieceAt m.toSq).map
      (fun cp => if cp.color = current_player then 0
                 else capture_piece_values cp.pieceType)

/-- C3 amended.  `reward_for_capture` behaves as
`reward_for_capture_model` on all inputs, and the spec's concrete FEN
instance holds: capturing the d5 pawn with e4xd5 yields exactly 0.1. -/
theorem C3_capture_reward_amended (board previous_board : Board)
    (current_player : Bool) (m : Move) :
    reward_for_capture board current_player m previous_board
      = reward_for_capture_model board current_player m previous_board
    ∧ reward_for_capture capFenPost true ⟨28, 35⟩ capFenPrev = some (1/10) := by
  refine ⟨?_, rfl⟩
  unfold reward_for_capture reward_for_capture_model
  cases hcap : board.isCapture m with
  | false => simp
  | true =>
    simp only [Bool.true_eq_false, if_false, ite_false]
    cases hpc : previous_board.pieceAt m.toSq with
    | none => simp
    | some cp =>
      by_cases hc : cp.color = current_player
      · simp [hc]
      · simp [hc, bne_iff_ne]

set_option maxRecDepth 10000 in
/-- C8.  The encoder writes the signed value of every occupied square at
row `7 - rank`, column `file`, leaves empty squares 0 (stated for any
engine position with valid, distinct squares), and encoding the standard
starting position gives the spec's eight rows. -/
theorem C8_board_encoder (b : Board) (r c : Nat)
    (hsq : ∀ e ∈ b.pieceMap, e.1 < 64)
    (hnd : (b.pieceMap.map Prod.fst).Nodup)
    (hr : r < 8) (hc : c < 8) :
    obsGet (get_observation b) r c
      = (match b.pieceAt ((7 - r) * 8 + c) with
         | some p => pieces p.symbol
         | none => 0)
    ∧ get_observation startingBoard
      = [[-4, -2, -3, -5, -6, -3, -2, -4],
         [-1, -1, -1, -1, -1, -1, -1, -1],
         [0, 0, 0, 0, 0, 0, 0, 0],
         [0, 0, 0, 0, 0, 0, 0, 0],
         [0, 0, 0, 0, 0, 0, 0, 0],
         [0, 0, 0, 0, 0, 0, 0, 0],
         [1, 1, 1, 1, 1, 1, 1, 1],
         [4, 2, 3, 5, 6, 3, 2, 4]] := by
  constructor
  · unfold get_observation
    rw [fold_obs_read b.pieceMap emptyObs wfGrid_emptyObs hsq hnd r c hr hc]
    unfold Board.pieceAt
    cases hf : b.pieceMap.find? (fun e => e.1 == (7 - r) * 8 + c) with
    | none => simp [obsGet_emptyObs]
    | some e => simp
  · decide

theorem C8_board_encoder_witness :
    (∀ e ∈ startingBoard.pieceMap, e.1 < 64)
    ∧ (startingBoard.pieceMap.map Prod.fst).Nodup
    ∧ (0 : Nat) < 8 ∧ (3 : Nat) < 8
    ∧ (obsGet (get_observation startingBoard) 0 3
        = (match startingBoard.pieceAt ((7 - 0) * 8 + 3) with
           | some p => pieces p.symbol
           | none => 0)
       ∧ get_observation startingBoard
         = [[-4, -2, -3, -5, -6, -3, -2, -4],
            [-1, -1, -1, -1, -1, -1, -1, -1],
            [0, 0, 0, 0, 0, 0, 0, 0],
            [0, 0, 0, 0, 0, 0, 0, 0],
            [0, 0, 0, 0, 0, 0, 0, 0],
            [0, 0, 0, 0, 0, 0, 0, 0],
            [1, 1, 1, 1, 1, 1, 1, 1],
            [4, 2, 3, 5, 6, 3, 2, 4]]) :=
  ⟨by decide, by decide, by decide, by decide,
   C8_board_encoder startingBoard 0 3 (by decide) (by decide) (by decide) (by decide)⟩

/-- C4 counterexample.  White king e4, Black pawn d5, no White pawn
anywhere: the claim's formula gives -0.5 (no friendly pawn on the king's
file, and no friendly pawn on d5/e5/f5 - the d5 pawn is Black's), but the
code counts the enemy pawn (it never checks the pawn's color in the
forward loop) and returns -0.5 + 0.2 = -0.3. -/
theorem C4_king_safety_cex :
    calculate_king_safety ksCexBoard true = some (-(3/10))
    ∧ ksCexBoard.pieceMap.all
        (fun e => !(e.2.pieceType == 1 && e.2.color == true)) = true
    ∧ (-(3/10) : ℚ) ≠ -(1/2) := by
  refine ⟨?_, rfl, by norm_num⟩
  have h : calculate_king_safety ksCexBoard true = some (-(1/2) + 1/5) := rfl
  rw [h]
  norm_num

/-- Bare position with the White king on a8 (56) and the Black king on
h1 (7): the forward-square loop computes list indices 63, 64, 65, and the
second lookup raises `IndexError`. -/
def wkingA8Board : Board where
  pieceMap := [(7, ⟨6, false⟩), (56, ⟨6, true⟩)]
  turn := true
  isCheck := false
  isCheckmate := false
  isStalemate := false
  isInsufficientMaterial := false
  isGameOver := false
  legalMoves := []
  fullmoveNumber := 1
  result := "*"
  fen := "K7/8/8/8/8/8/8/7k w - - 0 1"
  castlingRights := 0
  epSquare := none

/-- Bare position with the White king on a4 (24), a White pawn on h4 (31)
and the Black king on h8 (63): for the a-file king the offset -1 square is
computed as 4 * 8 - 1 = 31, which is h4 - the opposite edge of the king's
own rank - so the h4 pawn is counted. -/
def wrapBoard : Board where
  pieceMap := [(24, ⟨6, true⟩), (31, ⟨1, true⟩), (63, ⟨6, false⟩)]
  turn := true
  isCheck := false
  isCheckmate := false
  isStalemate := false
  isInsufficientMaterial := false
  isGameOver := false
  legalMoves := []
  fullmoveNumber := 1
  result := "*"
  fen := "7k/8/8/8/K6P/8/8/8 w - - 0 1"
  castlingRights := 0
  epSquare := none

/-- The amended king-safety specification: the -0.5 penalty applies
exactly when no friendly pawn stands on the king's file (as claimed), but
the bonus is 0.2 per pawn of either color among the three squares
computed as `(rank toward the opponent) * 8 + (file + offset)` for
offsets -1, 0, 1 and looked up with Python list-index semantics (negative
indices wrap to the top of the board, and an a-file or h-file king reads a
square of an adjacent rank on the opposite edge); when any computed index
falls outside [-64, 64) - e.g. for a White king on the 8th rank - the
lookup raises `IndexError` and no score is returned. -/
def calculate_king_safety_model (board : Board) (current_player : Bool) :
    Option ℚ :=
  match board.king current_player with
  | none => some 0
  | some agent_king_square =>
    let king_file := agent_king_square % 8
    let friendly_pawn_on_file :=
      board.pieceMap.any (fun e =>
        e.1 % 8 == king_file && (e.2.pieceType == 1 && e.2.color == current_player))
    let penalty : ℚ := if friendly_pawn_on_file then 0 else -(1/2)
    let king_rank := agent_king_square / 8
    let targets : List Int :=
      [-1, 0, 1].map (fun offset =>
        if current_player then
          ((king_rank : Int) + 1) * 8 + ((king_file : Int) + offset)
        else
          ((king_rank : Int) - 1) * 8 + ((king_file : Int) + offset))
    if targets.all (fun i => decide (-64 ≤ i ∧ i < 64)) then
      some (penalty + (1/5) * ((targets.countP (fun i =>
        match board.pieceAtIdx i with
        | some (some p) => p.pieceType == 1
        | _ => false) : Nat) : ℚ))
    else none

theorem pieceAtIdx_eq_none_iff (b : Board) (i : Int) :
    b.pieceAtIdx i = none ↔ ¬(-64 ≤ i ∧ i < 64) := by
  unfold Board.pieceAtIdx
  by_cases h1 : 0 ≤ i ∧ i < 64
  · simp only [h1, if_true]
    simp
    omega
  · by_cases h2 : -64 ≤ i ∧ i < 0
    · simp only [h1, if_false, h2, if_true]
      simp
      omega
    · simp only [h1, if_false, h2]
      simp
      omega

/-- The king-safety forward loop, as a function of the looked-up squares:
it fails as soon as a lookup index is out of range, and otherwise adds 0.2
per square holding a pawn of either color. -/
theorem ks_fold_eq (b : Board) (ts : List Int) (acc : ℚ) :
    (ts.foldlM (fun score i =>
        match b.pieceAtIdx i with
        | none => none
        | some piece =>
          match piece with
          | some p => if p.pieceType == 1 then some (score + 1/5) else some score
          | none => some score) acc)
      = (if ts.all (fun i => decide (-64 ≤ i ∧ i < 64)) then
          some (acc + (1/5) * ((ts.countP (fun i =>
            match b.pieceAtIdx i with
            | some (some p) => p.pieceType == 1
            | _ => false) : Nat) : ℚ))
        else none) := by
  induction ts generalizing acc with
  | nil => simp
  | cons i ts ih =>
    rw [List.foldlM_cons]
    cases hpi : b.pieceAtIdx i with
    | none =>
      have hir : ¬(-64 ≤ i ∧ i < 64) := (pieceAtIdx_eq_none_iff b i).mp hpi
      simp [hir]
    | some pc =>
      have hir : (-64 ≤ i ∧ i < 64) := by
        by_contra hcon
        rw [← pieceAtIdx_eq_none_iff b i] at hcon
        rw [hcon] at hpi
        exact absurd hpi (by simp)
      cases pc with
      | none =>
        simp only [Option.bind_eq_bind, Option.some_bind, ih, List.all_cons,
          List.countP_cons, hpi, hir, decide_eq_true_eq]
        simp [hir]
      | some p =>
        cases hp : (p.pieceType == 1) with
        | false =>
          simp only [hp, Bool.false_eq_true, if_false, Option.bind_eq_bind,
            Option.some_bind, ih, List.all_cons, List.countP_cons, hpi]
          simp [hir, hp]
        | true =>
          simp only [hp, if_true, Option.bind_eq_bind, Option.some_bind, ih,
            List.all_cons, List.countP_cons, hpi]
          simp [hir]
          split_ifs with hall
          · ring_nf
          · rfl

/-- Rewriting the offset loop as a loop over the computed square indices. -/
theorem ks_fold_map (b : Board) (f : Int → Int) (os : List Int) (acc : ℚ) :
    (os.foldlM (fun score offset =>
        match b.pieceAtIdx (f offset) with
        | none => none
        | some piece =>
          match piece with
          | some p => if p.pieceType == 1 then some (score + 1/5) else some score
          | none => some score) acc)
      = ((os.map f).foldlM (fun score i =>
          match b.pieceAtIdx i with
          | none => none
          | some piece =>
            match piece with
            | some p => if p.pieceType == 1 then some (score + 1/5) else some score
            | none => some score) acc) := by
  induction os generalizing acc with
  | nil => rfl
  | cons o os ih =>
    rw [List.map_cons, List.foldlM_cons, List.foldlM_cons]
    cases hpi : b.pieceAtIdx (f o) with
    | none => rfl
    | some pc =>
      cases pc with
      | none =>
        simp only [Option.bind_eq_bind, Option.some_bind]
        exact ih acc
      | some p =>
        cases hp : (p.pieceType == 1) with
        | false =>
          simp only [hp, Bool.false_eq_true, if_false, Option.bind_eq_bind,
            Option.some_bind]
          exact ih acc
        | true =>
          simp only [hp, if_true, Option.bind_eq_bind, Option.some_bind]
          exact ih (acc + 1/5)

/-- C4 amended.  `calculate_king_safety` agrees with
`calculate_king_safety_model` on every position and player; in
particular the loop counts pawns of either color at Python-wrapped
indices (the a4-king position counts its own h4 pawn through the wrapped
index 31), and a White king on the 8th rank makes the lookup raise
`IndexError` (no value) instead of returning a score. -/
theorem C4_king_safety_amended (board : Board) (current_player : Bool) :
    calculate_king_safety board current_player
      = calculate_king_safety_model board current_player
    ∧ calculate_king_safety wkingA8Board true = none
    ∧ calculate_king_safety wrapBoard true = some (-(3/10)) := by
  refine ⟨?_, rfl, ?_⟩
  · unfold calculate_king_safety calculate_king_safety_model
    cases hk : board.king current_player with
    | none => rfl
    | some agent_king_square =>
      simp only [Option.bind_eq_bind]
      rw [ks_fold_map board
          (fun offset =>
            if current_player = true then
              (((agent_king_square / 8 : Nat) : Int) + 1) * 8
                + (((agent_king_square % 8 : Nat) : Int) + offset)
            else
              (((agent_king_square / 8 : Nat) : Int) - 1) * 8
                + (((agent_king_square % 8 : Nat) : Int) + offset))]
      rw [ks_fold_eq]
  · have h : calculate_king_safety wrapBoard true = some (-(1/2) + 1/5) := rfl
    rw [h]
    norm_num

end ChessRL
